import Mathlib

/-!
Verification of the aws-pod-eip-controller reconciliation engine.

The Go sources are shallowly embedded: pure decision functions become Lean
functions, the EC2 cloud is an explicit state (`EC2State`) and every mutating
cloud call is recorded as a `CloudOp` in an output trace, so theorems can
speak about which writes an operation issues.  Kubernetes label patches are
recorded in the same trace (`CloudOp.patchPod`); they are cluster writes, not
cloud writes, and `CloudOp.isCloudWrite` separates the two.

Naming note: a few Go identifiers are shortened (for example the
`...Annotation` accessor names of `event.go` appear as `...Annot`); each
definition carries the source function it embeds.
-/

namespace PEC

/-! ## Constants from `pkg/config.go` -/

/-- `pkg.PodEIPAnnotationKey`. -/
def PodEIPAnnotationKey : String := "aws-samples.github.com/aws-pod-eip-controller-type"

/-- `pkg.PodEIPAnnotationValueAuto`. -/
def ValueAuto : String := "auto"

/-- `pkg.PodEIPAnnotationValueFixedTag`. -/
def ValueFixedTag : String := "fixed-tag"

/-- `pkg.PodEIPAnnotationValueFixedTagValue`. -/
def ValueFixedTagValue : String := "fixed-tag-value"

/-- `pkg.PodAddressPoolAnnotationKey`. -/
def PodAddressPoolKey : String := "aws-samples.github.com/aws-pod-eip-controller-public-ipv4-pool"

/-- `pkg.PodAddressFixedTagAnnotationKey`. -/
def PodAddressFixedTagKey : String := "aws-samples.github.com/aws-pod-eip-controller-fixed-tag"

/-- `pkg.PodAddressFixedTagValueAnnotationKey`. -/
def PodAddressFixedTagValueKey : String := "aws-samples.github.com/aws-pod-eip-controller-fixed-tag-value"

/-- `pkg.PodPublicIPLabel`. -/
def PodPublicIPLabel : String := "aws-pod-eip-controller-public-ip"

/-- `pkg.PodEIPAnnotationKeyLabel`. -/
def PodEIPTypeLabel : String := "aws-pod-eip-controller-type"

/-- `pkg.PodAddressPoolIDLabel`. -/
def PodAddressPoolIDLabel : String := "aws-pod-eip-controller-public-ipv4-pool"

/-- `pkg.PodFixedTagLabel`. -/
def PodFixedTagLabel : String := "aws-pod-eip-controller-fixed-tag"

/-- `pkg.PodFixedTagValueLabel`. -/
def PodFixedTagValueLabel : String := "aws-pod-eip-controller-fixed-tag-value"

/-- `pkg.TagTypeKey` (the EIP tag holding the controller type). -/
def TagTypeKey : String := "aws-samples.github.com/aws-pod-eip-controller-type"

/-- `pkg.TagClusterNameKey`. -/
def TagClusterNameKey : String := "aws-samples.github.com/aws-pod-eip-controller-cluster-name"

/-- `pkg.TagPodKey`. -/
def TagPodKey : String := "aws-samples.github.com/aws-pod-eip-controller-pod"

/-- `pkg.PodEIPAnnotationValue`: the legacy single-type constant (value
`"auto"`) that `PodController.addAddEvent` in `pkg/k8s/controller.go`
compares against (defined in the earlier generation of `pkg/config.go`). -/
def PodEIPAnnotationValue : String := "auto"

/-- `pkg.PodEIPReclaimAnnotationKey` (earlier generation of `pkg/config.go`). -/
def PodEIPReclaimKey : String := "aws-samples.github.com/aws-pod-eip-controller-reclaim"

/-- `pkg.PodEIPReclaimAnnotationVal`. -/
def PodEIPReclaimVal : String := "false"

/-- `pkg.PodEIPModeAnnotationKey` (earlier generation of `pkg/config.go`). -/
def PodEIPModeKey : String := "aws-samples.github.com/aws-pod-eip-controller-mode"

/-- `pkg.PodEIPModeAnnotationVal`. -/
def PodEIPModeVal : String := "fixed"

/-- `pkg.ValidPECType`. -/
def ValidPECType (pecType : String) : Bool :=
  pecType == ValueAuto || pecType == ValueFixedTag || pecType == ValueFixedTagValue

/-! ## Pod views and events -/

/-- The slice of `v1.Pod` the controller reads: metadata identity, the
annotation and label maps (modelled as association lists; Kubernetes metadata
maps have distinct keys), and the status fields.  `v1.Pod{}` is `{}`. -/
structure Pod where
  name : String := ""
  ns : String := ""
  annots : List (String × String) := []
  labels : List (String × String) := []
  podIP : String := ""
  hostIP : String := ""
  resourceVersion : String := ""
  phase : String := ""
  deriving DecidableEq, Repr

/-- `handler.PodEvent` (`pkg/handler/event.go`). -/
structure PodEvent where
  key : String
  name : String
  ns : String
  annots : List (String × String)
  labels : List (String × String)
  ip : String
  hostIP : String
  resourceVersion : String
  deriving DecidableEq, Repr

/-- `handler.NewPodEvent`. -/
def NewPodEvent (key : String) (pod : Pod) : PodEvent :=
  { key := key
    name := pod.name
    ns := pod.ns
    annots := pod.annots
    labels := pod.labels
    ip := pod.podIP
    hostIP := pod.hostIP
    resourceVersion := pod.resourceVersion }

/-- `PodEvent.GetPECTypeAnnotation`: the type annotation when present and
valid, with the `ok` flag folded into the `Option`. -/
def PodEvent.GetPECTypeAnnot (p : PodEvent) : Option String :=
  match p.annots.lookup PodEIPAnnotationKey with
  | some v => if ValidPECType v then some v else none
  | none => none

/-- `PodEvent.GetPECTypeLabel`. -/
def PodEvent.GetPECTypeLbl (p : PodEvent) : Option String :=
  p.labels.lookup PodEIPTypeLabel

/-- `PodEvent.GetAddressPoolIdAnnotation`. -/
def PodEvent.GetAddressPoolIdAnnot (p : PodEvent) : Option String :=
  p.annots.lookup PodAddressPoolKey

/-- `PodEvent.GetAddressPoolIdLabel`. -/
def PodEvent.GetAddressPoolIdLbl (p : PodEvent) : Option String :=
  p.labels.lookup PodAddressPoolIDLabel

/-- `PodEvent.GetFixedTagAnnotation`. -/
def PodEvent.GetFixedTagAnnot (p : PodEvent) : Option String :=
  p.annots.lookup PodAddressFixedTagKey

/-- `PodEvent.GetFixedTagLabel`. -/
def PodEvent.GetFixedTagLbl (p : PodEvent) : Option String :=
  p.labels.lookup PodFixedTagLabel

/-- `PodEvent.GetFixedTagValueAnnotation`. -/
def PodEvent.GetFixedTagValueAnnot (p : PodEvent) : Option String :=
  p.annots.lookup PodAddressFixedTagValueKey

/-- `PodEvent.GetFixedTagValueLabel`. -/
def PodEvent.GetFixedTagValueLbl (p : PodEvent) : Option String :=
  p.labels.lookup PodFixedTagValueLabel

/-- `PodEvent.GetPublicIPLabel`. -/
def PodEvent.GetPublicIPLbl (p : PodEvent) : Option String :=
  p.labels.lookup PodPublicIPLabel

/-- `Handler.hasChange` (`pkg/handler/handler.go`): the event drifts when the
type annotation differs from the type label, or the mode-specific annotation
differs from the corresponding label. -/
def hasChange (event : PodEvent) : Bool :=
  let pecAnnot := (event.GetPECTypeAnnot).getD ""
  let pecLbl := (event.GetPECTypeLbl).getD ""
  if pecAnnot != pecLbl then true
  else if pecAnnot == ValueAuto then
    (event.GetAddressPoolIdAnnot).getD "" != (event.GetAddressPoolIdLbl).getD ""
  else if pecAnnot == ValueFixedTag then
    (event.GetFixedTagAnnot).getD "" != (event.GetFixedTagLbl).getD ""
  else if pecAnnot == ValueFixedTagValue then
    (event.GetFixedTagValueAnnot).getD "" != (event.GetFixedTagValueLbl).getD ""
  else false

/-! ## Event filter (`pkg/k8s/controller.go`) -/

/-- `PodController.addAddEvent`: enqueue an add event when the pod carries
the type annotation with the legacy value `pkg.PodEIPAnnotationValue`
(`"auto"`) and has an IP assigned. -/
def addAddEvent (pod : Pod) : Bool :=
  match pod.annots.lookup PodEIPAnnotationKey with
  | some v => v == PodEIPAnnotationValue && pod.podIP != ""
  | none => false

/-- `PodController.addUpdateEvent`: enqueue an update event whenever the new
pod has an IP. -/
def addUpdateEvent (newPod : Pod) : Bool :=
  newPod.podIP != ""

/-- `PodController.addDeleteEvent`: delete events are always enqueued. -/
def addDeleteEvent (_pod : Pod) : Bool :=
  true

/-! ## IPv4 and CIDR (the slice of Go `net` used by `getNetworkInterface`) -/

/-- Split a character list on a separator (the single-character
`strings.Split` the dotted-quad and CIDR grammars need). -/
def splitOnChar (sep : Char) : List Char → List (List Char)
  | [] => [[]]
  | c :: cs =>
    let rest := splitOnChar sep cs
    if c == sep then [] :: rest
    else
      match rest with
      | [] => [[c]]
      | g :: gs => (c :: g) :: gs

/-- One dotted-quad field as `net.ParseIP` reads it: one to three digits, no
leading zero, value at most 255. -/
def parseOctet (cs : List Char) : Option Nat :=
  if cs.length == 0 || cs.length > 3 then none
  else if !cs.all Char.isDigit then none
  else if cs.length > 1 && cs.headI == '0' then none
  else
    let n := cs.foldl (fun acc c => acc * 10 + (c.toNat - 48)) 0
    if n ≤ 255 then some n else none

/-- The dotted quad of an IPv4 address as a 32-bit number. -/
def parseIPv4Chars (cs : List Char) : Option Nat :=
  match (splitOnChar '.' cs).mapM parseOctet with
  | some [a, b, c, d] => some (((a * 256 + b) * 256 + c) * 256 + d)
  | _ => none

/-- `net.ParseIP` restricted to IPv4 (the controller is IPv4 only): the
address as a 32-bit number, `none` where Go returns a nil `IP`. -/
def parseIPv4 (s : String) : Option Nat :=
  parseIPv4Chars s.toList

/-- The prefix length of a CIDR: decimal, at most 32. -/
def parseMaskLen (cs : List Char) : Option Nat :=
  if cs.length == 0 || cs.length > 2 then none
  else if !cs.all Char.isDigit then none
  else
    let n := cs.foldl (fun acc c => acc * 10 + (c.toNat - 48)) 0
    if n ≤ 32 then some n else none

/-- `net.ParseCIDR` (IPv4): the masked network base and the prefix length,
`none` where Go returns a nil `IPNet`. -/
def parseCIDR (s : String) : Option (Nat × Nat) :=
  match splitOnChar '/' s.toList with
  | [ipPart, lenPart] =>
    match parseIPv4Chars ipPart, parseMaskLen lenPart with
    | some ip, some len => some ((ip >>> (32 - len)) <<< (32 - len), len)
    | _, _ => none
  | _ => none

/-- `ipnet.Contains(ip)` guarded by `ipnet != nil`, as the prefix loop of
`getNetworkInterface` uses it: false when either side fails to parse. -/
def cidrContains (cidr ipStr : String) : Bool :=
  match parseCIDR cidr, parseIPv4 ipStr with
  | some (netBase, len), some ip => (ip >>> (32 - len)) == (netBase >>> (32 - len))
  | _, _ => false

/-! ## The cloud state and the write trace -/

/-- An Elastic IP as `ec2.types.Address` reaches the controller
(`toAddress` in `pkg/aws/ec2.go`): `associationID = none` models a nil
`AssociationId`. -/
structure EipAddress where
  allocationID : String
  associationID : Option String
  privateIP : String
  publicIP : String
  tags : List (String × String)
  deriving DecidableEq, Repr

/-- A network interface as `DescribeNetworkInterfaces` reports it: the
private IPs bound to it, its VPC, the attached instance (if any) and its
delegated IPv4 prefixes. -/
structure NetIface where
  id : String
  status : String
  privateIPs : List String
  vpcID : String
  instanceID : Option String
  ipv4Prefixes : List String
  deriving DecidableEq, Repr

/-- The EC2 control-plane state the embedded client reads and writes.
`nextID` feeds fresh allocation identifiers to `AllocateAddress`. -/
structure EC2State where
  addresses : List EipAddress
  ifaces : List NetIface
  nextID : Nat := 0
  deriving DecidableEq, Repr

/-- One mutating call issued by the controller.  `patchPod` is the label
JSON-patch against the cluster API; `sleep` records the recycler's
throttling pause; `shieldDelete` the legacy Shield protection removal. -/
inductive CloudOp where
  | allocate (podKey poolId allocationID : String)
  | associate (allocationID eniID privateIP : String)
  | disassociate (associationID : String)
  | release (allocationID : String)
  | createTags (resource : String) (kv : List (String × String))
  | deleteTags (resource : String) (keys : List String)
  | patchPod (ns name : String) (patches : List (String × String × String))
  | sleep (seconds : Nat)
  | shieldDelete (allocationID : String)
  deriving DecidableEq, Repr

/-- The writes C1 counts as cloud writes: allocate, associate, disassociate,
release and tag mutations; a pod label patch or a sleep is not one. -/
def CloudOp.isCloudWrite : CloudOp → Bool
  | .allocate _ _ _ => true
  | .associate _ _ _ => true
  | .disassociate _ => true
  | .release _ => true
  | .createTags _ _ => true
  | .deleteTags _ _ => true
  | .patchPod _ _ _ => false
  | .sleep _ => false
  | .shieldDelete _ => false

/-- Whether an op is a pod label patch. -/
def CloudOp.isPatchPod : CloudOp → Bool
  | .patchPod _ _ _ => true
  | _ => false

/-- The outcome of a client call: the Go return value, the cloud state after
it, and the writes it issued, in order. -/
structure ECResult (α : Type) where
  res : Except String α
  state : EC2State
  ops : List CloudOp
  deriving Repr

/-- Whether an `Except` is a success (`err == nil` in Go). -/
def exceptOk {α : Type} : Except String α → Bool
  | .ok _ => true
  | .error _ => false

/-- Set one tag on a tag list (`CreateTags` upserts: last write wins). -/
def upsertTag (tags : List (String × String)) (k v : String) : List (String × String) :=
  if (tags.lookup k).isSome then
    tags.map (fun kv => if kv.1 == k then (k, v) else kv)
  else tags ++ [(k, v)]

/-- Remove a set of tag keys from a tag list (`DeleteTags`). -/
def removeTags (tags : List (String × String)) (keys : List String) : List (String × String) :=
  tags.filter (fun kv => !keys.contains kv.1)

/-! ## `aws.EC2Client` (`pkg/aws/ec2.go`) -/

/-- The fields of `EC2Client` the operations read. -/
structure EC2Cfg where
  vpcID : String
  clusterName : String
  deriving DecidableEq, Repr

/-- `DescribeNetworkInterfaces` with filters `addresses.private-ip-address`
and `vpc-id`. -/
def describeNIsByIP (s : EC2State) (vpc ip : String) : List NetIface :=
  s.ifaces.filter (fun ni => ni.vpcID == vpc && ni.privateIPs.contains ip)

/-- `DescribeNetworkInterfaces` with filters `vpc-id` and
`attachment.instance-id`. -/
def describeNIsByInstance (s : EC2State) (vpc inst : String) : List NetIface :=
  s.ifaces.filter (fun ni => ni.vpcID == vpc && ni.instanceID == some inst)

/-- The nested prefix loop of `getNetworkInterface`: the first interface one
of whose IPv4 prefixes contains the private IP. -/
def findIfaceByPfx (ip : String) : List NetIface → Option NetIface
  | [] => none
  | ni :: rest =>
    if ni.ipv4Prefixes.any (fun pfx => cidrContains pfx ip) then some ni
    else findIfaceByPfx ip rest

/-- `EC2Client.getNetworkInterface`: resolve the interface carrying
`privateIP`, falling back to the host interface, its attached instance, and
that instance's prefix-delegated interfaces. -/
def getNetworkInterface (c : EC2Cfg) (s : EC2State) (privateIP hostIP : String) :
    Except String NetIface :=
  match describeNIsByIP s c.vpcID privateIP with
  | ni :: _ => .ok ni
  | [] =>
    match describeNIsByIP s c.vpcID hostIP with
    | [] => .error ("no network interface found for " ++ privateIP ++ " private IP host IP "
        ++ hostIP ++ " in " ++ c.vpcID ++ " vpc on ipv4prefixes")
    | ni2 :: _ =>
      match ni2.instanceID with
      | none => .error ("network interface for host IP " ++ hostIP ++ " in vpc " ++ c.vpcID
          ++ " does not have an attached instance")
      | some inst =>
        match describeNIsByInstance s c.vpcID inst with
        | [] => .error ("no network interface found for instance id " ++ inst ++ " in "
            ++ c.vpcID ++ " vpc on ipv4prefixes")
        | _ :: _ =>
          match findIfaceByPfx privateIP (describeNIsByInstance s c.vpcID inst) with
          | some ni => .ok ni
          | none => .error ("no id found for " ++ privateIP ++ " private IP host IP "
              ++ hostIP ++ " in " ++ c.vpcID ++ " vpc on ipv4prefixes")

/-- `EC2Client.allocateAddress`: a fresh EIP in the pool, pre-tagged with the
three controller tags (type `auto`, cluster name, pod key). -/
def allocateAddress (c : EC2Cfg) (podKey poolId : String) (s : EC2State) :
    ECResult (String × String) :=
  let allocID := "eipalloc-" ++ toString s.nextID
  let pubIP := "ip-" ++ toString s.nextID
  let addr : EipAddress :=
    { allocationID := allocID
      associationID := none
      privateIP := ""
      publicIP := pubIP
      tags := [(TagTypeKey, ValueAuto), (TagClusterNameKey, c.clusterName), (TagPodKey, podKey)] }
  { res := .ok (allocID, pubIP)
    state := { s with addresses := s.addresses ++ [addr], nextID := s.nextID + 1 }
    ops := [.allocate podKey poolId allocID] }

/-- `EC2Client.getTagAddress`: `DescribeAddresses` filtered on `tag-key`,
then the first address with no association (read only). -/
def getTagAddress (s : EC2State) (tagKey : String) : Except String (String × String) :=
  let found := s.addresses.filter (fun a => (a.tags.lookup tagKey).isSome)
  match found with
  | [] => .error ("no address found for tag key " ++ tagKey)
  | _ :: _ =>
    match found.find? (fun a => a.associationID.isNone) with
    | some a => .ok (a.allocationID, a.publicIP)
    | none => .error ("no address found for tag key " ++ tagKey ++ " and not attached")

/-- `EC2Client.getTagValueAddress`: `DescribeAddresses` filtered on
`tag:tagKey = value`, first result (read only; no association check). -/
def getTagValueAddress (s : EC2State) (tagKey value : String) : Except String (String × String) :=
  match s.addresses.filter (fun a => a.tags.lookup tagKey == some value) with
  | [] => .error ("no address found for tag-value key " ++ tagKey)
  | a :: _ => .ok (a.allocationID, a.publicIP)

/-- `EC2Client.createTag`: upsert the given tags on one allocation. -/
def createTag (s : EC2State) (resource : String) (kv : List (String × String)) : ECResult Unit :=
  { res := .ok ()
    state := { s with addresses := s.addresses.map (fun a =>
        if a.allocationID == resource then
          { a with tags := kv.foldl (fun ts p => upsertTag ts p.1 p.2) a.tags }
        else a) }
    ops := [.createTags resource kv] }

/-- `EC2Client.deleteTag`: drop the given tag keys from one allocation. -/
def deleteTag (s : EC2State) (resource : String) (keys : List String) : ECResult Unit :=
  { res := .ok ()
    state := { s with addresses := s.addresses.map (fun a =>
        if a.allocationID == resource then { a with tags := removeTags a.tags keys } else a) }
    ops := [.deleteTags resource keys] }

/-- `EC2Client.associateAddress`: bind the allocation to the interface
against the private IP (the association id is derived deterministically). -/
def associateAddress (s : EC2State) (allocationID eniID privateIP : String) : ECResult Unit :=
  { res := .ok ()
    state := { s with addresses := s.addresses.map (fun a =>
        if a.allocationID == allocationID then
          { a with associationID := some ("eipassoc-" ++ allocationID), privateIP := privateIP }
        else a) }
    ops := [.associate allocationID eniID privateIP] }

/-- `EC2Client.disassociateAddress`: clear the association carrying the
given association id. -/
def disassociateAddress (s : EC2State) (associationID : String) : ECResult Unit :=
  { res := .ok ()
    state := { s with addresses := s.addresses.map (fun a =>
        if a.associationID == some associationID then
          { a with associationID := none, privateIP := "" }
        else a) }
    ops := [.disassociate associationID] }

/-- `EC2Client.releaseAddress`: drop the allocation from the account. -/
def releaseAddress (s : EC2State) (allocationID : String) : ECResult Unit :=
  { res := .ok ()
    state := { s with addresses := s.addresses.filter (fun a => a.allocationID != allocationID) }
    ops := [.release allocationID] }

/-- `EC2Client.describePodAddresses`: `DescribeAddresses` filtered on the
controller's pod and cluster-name tags, keeping only addresses whose
`AssociationId` is non-nil (read only). -/
def describePodAddresses (c : EC2Cfg) (s : EC2State) (podKey : String) : List EipAddress :=
  s.addresses.filter (fun a =>
    a.tags.lookup TagPodKey == some podKey
      && a.tags.lookup TagClusterNameKey == some c.clusterName
      && a.associationID.isSome)

/-- `aws.AssociateAddressOptions`. -/
structure AssociateAddressOptions where
  podKey : String
  podIP : String
  hostIP : String
  addressPoolId : String
  pecType : String
  tagKey : String
  tagValueKey : String
  deriving DecidableEq, Repr

/-- `EC2Client.AssociateAddress`: resolve the interface, obtain an EIP per
the PEC type (allocating, claiming by tag key, or claiming by tag value,
tagging claimed EIPs with the controller tags), then associate it.  Returns
the public IP. -/
def clientAssociateAddress (c : EC2Cfg) (o : AssociateAddressOptions) (s : EC2State) :
    ECResult String :=
  match getNetworkInterface c s o.podIP o.hostIP with
  | .error msg => { res := .error msg, state := s, ops := [] }
  | .ok ni =>
    if o.pecType == ValueAuto then
      let r := allocateAddress c o.podKey o.addressPoolId s
      match r.res with
      | .error msg => { res := .error msg, state := r.state, ops := r.ops }
      | .ok (allocID, pubIP) =>
        let r2 := associateAddress r.state allocID ni.id o.podIP
        { res := .ok pubIP, state := r2.state, ops := r.ops ++ r2.ops }
    else if o.pecType == ValueFixedTag then
      match getTagAddress s o.tagKey with
      | .error msg => { res := .error msg, state := s, ops := [] }
      | .ok (allocID, pubIP) =>
        let r := createTag s allocID
          [(TagPodKey, o.podKey), (TagClusterNameKey, c.clusterName), (TagTypeKey, ValueFixedTag)]
        let r2 := associateAddress r.state allocID ni.id o.podIP
        { res := .ok pubIP, state := r2.state, ops := r.ops ++ r2.ops }
    else if o.pecType == ValueFixedTagValue then
      match getTagValueAddress s o.tagValueKey o.podKey with
      | .error msg => { res := .error msg, state := s, ops := [] }
      | .ok (allocID, pubIP) =>
        let r := createTag s allocID
          [(TagPodKey, o.podKey), (TagClusterNameKey, c.clusterName),
            (TagTypeKey, ValueFixedTagValue)]
        let r2 := associateAddress r.state allocID ni.id o.podIP
        { res := .ok pubIP, state := r2.state, ops := r.ops ++ r2.ops }
    else
      { res := .error ("unsupported PEC type " ++ o.pecType), state := s, ops := [] }

/-- `EC2Client.DisassociateAddress`: look up the addresses owned by the pod
key; when one exists, disassociate the first, then release it when its type
tag is `auto`, or strip the three controller tags when it is one of the
fixed types. -/
def clientDisassociateAddress (c : EC2Cfg) (podKey : String) (s : EC2State) : ECResult Unit :=
  match describePodAddresses c s podKey with
  | [] => { res := .ok (), state := s, ops := [] }
  | addr :: _ =>
    let r := disassociateAddress s (addr.associationID.getD "")
    match addr.tags.lookup TagTypeKey with
    | none => { res := .ok (), state := r.state, ops := r.ops }
    | some tagType =>
      if tagType == ValueAuto then
        let r2 := releaseAddress r.state addr.allocationID
        { res := .ok (), state := r2.state, ops := r.ops ++ r2.ops }
      else if tagType == ValueFixedTag || tagType == ValueFixedTagValue then
        let r2 := deleteTag r.state addr.allocationID [TagPodKey, TagTypeKey, TagClusterNameKey]
        { res := .ok (), state := r2.state, ops := r.ops ++ r2.ops }
      else
        { res := .ok (), state := r.state, ops := r.ops }

/-! ## `handler.Handler` (`pkg/handler/handler.go`) -/

/-- The JSON-patch path of a label. -/
def labelPath (lbl : String) : String := "/metadata/labels/" ++ lbl

/-- The `remove` patches `Handler.DisassociateAddress` builds, one per
controller label present on the event, in source order. -/
def removalLabelPatches (event : PodEvent) : List (String × String × String) :=
  (if (event.GetPECTypeLbl).isSome then [("remove", labelPath PodEIPTypeLabel, "")] else [])
    ++ (if (event.GetAddressPoolIdLbl).isSome then
          [("remove", labelPath PodAddressPoolIDLabel, "")] else [])
    ++ (if (event.GetPublicIPLbl).isSome then [("remove", labelPath PodPublicIPLabel, "")] else [])
    ++ (if (event.GetFixedTagLbl).isSome then [("remove", labelPath PodFixedTagLabel, "")] else [])
    ++ (if (event.GetFixedTagValueLbl).isSome then
          [("remove", labelPath PodFixedTagValueLabel, "")] else [])

/-- The `add` patches `Handler.AssociateAddress` builds from the desired
state and the returned public IP, in source order. -/
def addLabelPatches (pecType addressPoolID tagKey tagValueKey publicIP : String) :
    List (String × String × String) :=
  (if pecType == ValueAuto && addressPoolID != "" then
      [("add", labelPath PodAddressPoolIDLabel, addressPoolID)] else [])
    ++ (if pecType == ValueFixedTag && tagKey != "" then
          [("add", labelPath PodFixedTagLabel, tagKey)] else [])
    ++ (if pecType == ValueFixedTagValue && tagValueKey != "" then
          [("add", labelPath PodFixedTagValueLabel, tagValueKey)] else [])
    ++ (if pecType != "" then [("add", labelPath PodEIPTypeLabel, pecType)] else [])
    ++ (if publicIP != "" then [("add", labelPath PodPublicIPLabel, publicIP)] else [])

/-- `Handler.DisassociateAddress`: the cloud disassociation for the event's
key, then one label patch removing whichever controller labels the event
still carries (none when the patch list is empty). -/
def handlerDisassociateAddress (c : EC2Cfg) (event : PodEvent) (s : EC2State) : ECResult Unit :=
  let r := clientDisassociateAddress c event.key s
  match r.res with
  | .error msg =>
    { res := .error ("disassociate address " ++ event.key ++ ": " ++ msg)
      state := r.state, ops := r.ops }
  | .ok _ =>
    let patches := removalLabelPatches event
    if patches.isEmpty then { res := .ok (), state := r.state, ops := r.ops }
    else
      { res := .ok (), state := r.state
        ops := r.ops ++ [.patchPod event.ns event.name patches] }

/-- `Handler.AssociateAddress`: no-op on an invalid type; otherwise the
client association followed by one label patch adding the desired labels. -/
def handlerAssociateAddress (c : EC2Cfg) (event : PodEvent) (s : EC2State) : ECResult Unit :=
  let pecType := (event.GetPECTypeAnnot).getD ""
  if !ValidPECType pecType then { res := .ok (), state := s, ops := [] }
  else
    let addressPoolID := (event.GetAddressPoolIdAnnot).getD ""
    let poolTmp := if addressPoolID == "" then "amazon" else addressPoolID
    let tagKey := (event.GetFixedTagAnnot).getD ""
    let tagValueKey := (event.GetFixedTagValueAnnot).getD ""
    let r := clientAssociateAddress c
      { podKey := event.key, podIP := event.ip, hostIP := event.hostIP
        addressPoolId := poolTmp, pecType := pecType
        tagKey := tagKey, tagValueKey := tagValueKey } s
    match r.res with
    | .error msg =>
      { res := .error ("associate address " ++ event.key ++ ": " ++ msg)
        state := r.state, ops := r.ops }
    | .ok publicIP =>
      let patches := addLabelPatches pecType addressPoolID tagKey tagValueKey publicIP
      if patches.isEmpty then { res := .ok (), state := r.state, ops := r.ops }
      else
        { res := .ok (), state := r.state
          ops := r.ops ++ [.patchPod event.ns event.name patches] }

/-- `Handler.addOrUpdateEvent`: disassociate, then associate. -/
def addOrUpdateEvent (c : EC2Cfg) (event : PodEvent) (s : EC2State) : ECResult Unit :=
  let r := handlerDisassociateAddress c event s
  match r.res with
  | .error msg => { res := .error msg, state := r.state, ops := r.ops }
  | .ok _ =>
    let r2 := handlerAssociateAddress c event r.state
    { res := r2.res, state := r2.state, ops := r.ops ++ r2.ops }

/-- `Handler.AddOrUpdate`: skip pods without an IP, skip events `hasChange`
rejects, and reconcile the rest. -/
def handlerAddOrUpdate (c : EC2Cfg) (key : String) (pod : Pod) (s : EC2State) : ECResult Unit :=
  if pod.podIP == "" then { res := .ok (), state := s, ops := [] }
  else
    let event := NewPodEvent key pod
    if !hasChange event then { res := .ok (), state := s, ops := [] }
    else addOrUpdateEvent c event s

/-- `Handler.Delete`: disassociate for an event built from the empty pod. -/
def handlerDelete (c : EC2Cfg) (key : String) (s : EC2State) : ECResult Unit :=
  handlerDisassociateAddress c (NewPodEvent key {}) s

/-- The writes the delete path issues for the first owned address: the
disassociation, then a release for type `auto` or the removal of the three
controller tags for the fixed types. -/
def deleteOpsFor (addr : EipAddress) : List CloudOp :=
  CloudOp.disassociate (addr.associationID.getD "") ::
    (match addr.tags.lookup TagTypeKey with
      | none => []
      | some t =>
        if t == ValueAuto then [CloudOp.release addr.allocationID]
        else if t == ValueFixedTag || t == ValueFixedTagValue then
          [CloudOp.deleteTags addr.allocationID [TagPodKey, TagTypeKey, TagClusterNameKey]]
        else [])

/-! ## The recycler (`pkg/recycle`, `pkg/service`: the legacy generation) -/

/-- The type tag key the legacy `EC2Service` uses. -/
def legacyTagTypeKey : String := "service.beta.kubernetes.io/aws-pod-eip-controller-type"

/-- The cluster-name tag key the legacy `EC2Service` uses. -/
def legacyTagClusterNameKey : String :=
  "service.beta.kubernetes.io/aws-pod-eip-controller-cluster-name"

/-- `service.Address`. -/
structure LegacyAddress where
  allocationID : String
  associationID : String
  privateIpAddress : String
  deriving DecidableEq, Repr

/-- `EC2Service.DescribeUsedAddresses`: the cluster-owned addresses whose
legacy type tag is `auto`.  The Go marshalling loop dereferences the SDK
pointers `*(address.AssociationId)` and `*(address.PrivateIpAddress)`
unconditionally, so a tag-matching address that is not associated (nil
pointers) makes the call panic instead of returning; `none` models that
crash, and a `some` result carries the dereferenced fields. -/
def describeUsedAddresses (clusterName : String) (s : EC2State) :
    Option (List LegacyAddress) :=
  let matched := s.addresses.filter (fun a =>
    a.tags.lookup legacyTagTypeKey == some ValueAuto
      && a.tags.lookup legacyTagClusterNameKey == some clusterName)
  if matched.all (fun a => a.associationID.isSome) then
    some (matched.map (fun a =>
      { allocationID := a.allocationID
        associationID := a.associationID.getD ""
        privateIpAddress := a.privateIP }))
  else none

/-- The body of the recycler's per-address loop in `Recycle.Run`: skip
addresses with an empty private IP or association and addresses whose
private IP belongs to a live pod; otherwise delete any Shield protection,
disassociate, release, and sleep 5 seconds. -/
def recycleAddress (live : List String) (isSub : Bool) (protections : List String)
    (s : EC2State) (a : LegacyAddress) : EC2State × List CloudOp :=
  if a.privateIpAddress == "" || a.associationID == "" then (s, [])
  else if live.contains a.privateIpAddress then (s, [])
  else
    let shieldOps :=
      if isSub && protections.contains a.allocationID then
        [CloudOp.shieldDelete a.allocationID]
      else []
    let r1 := disassociateAddress s a.associationID
    let r2 := releaseAddress r1.state a.allocationID
    (r2.state, shieldOps ++ r1.ops ++ r2.ops ++ [.sleep 5])

/-- One pass of `Recycle.Run`: the per-address loop over the addresses
`DescribeUsedAddresses` reported, given the set of live pod IPs.  `isSub`
and `protections` model the Shield subscription and its protected
allocations.  `none` propagates the marshalling panic: the process dies
before the loop runs, with no write issued. -/
def recyclePass (clusterName : String) (live : List String) (isSub : Bool)
    (protections : List String) (s : EC2State) : Option (EC2State × List CloudOp) :=
  match describeUsedAddresses clusterName s with
  | none => none
  | some addrs =>
    some (addrs.foldl
      (fun acc a =>
        let step := recycleAddress live isSub protections acc.1 a
        (step.1, acc.2 ++ step.2))
      (s, []))

/-- The writes the recycler issues for one reported address: nothing for a
skipped address, otherwise the optional Shield deletion, the disassociation,
the release, and the throttling sleep. -/
def recycleOpsFor (live : List String) (isSub : Bool) (protections : List String)
    (a : LegacyAddress) : List CloudOp :=
  if a.privateIpAddress == "" || a.associationID == "" then []
  else if live.contains a.privateIpAddress then []
  else
    (if isSub && protections.contains a.allocationID then
        [CloudOp.shieldDelete a.allocationID]
      else [])
      ++ [.disassociate a.associationID, .release a.allocationID, .sleep 5]

/-- The loop driver of `Recycle.Run`: a pass, then break when the period is
zero, else sleep and repeat.  `fuel` bounds the iterations observed; the
value is the number of passes run. -/
def recyclePassCount (period : Nat) : Nat → Nat
  | 0 => 0
  | fuel + 1 => 1 + (if period == 0 then 0 else recyclePassCount period fuel)

/-! ## The reclaim-aware handler (`src/unnamed/part_006`: the generation
with the `cacheEventMap` memo) -/

/-- The `handler.PodEvent` of that generation. -/
structure OldPodEvent where
  key : String
  name : String
  ns : String
  annots : List (String × String)
  labels : List (String × String)
  ip : String
  resourceVersion : String
  deriving DecidableEq, Repr

/-- `PodEvent.IsEIPReclaimDisabled`: the reclaim annotation decides when
present (`"false"` disables); otherwise the mode annotation decides
(`"fixed"` disables). -/
def OldPodEvent.IsEIPReclaimDisabled (p : OldPodEvent) : Bool :=
  match p.annots.lookup PodEIPReclaimKey with
  | some v => v == PodEIPReclaimVal
  | none =>
    match p.annots.lookup PodEIPModeKey with
    | some v => v == PodEIPModeVal
    | none => false

/-- `Handler.isEnableEIPReclaim`: reclaim is enabled unless the memoised
event for the key disables it. -/
def isEnableEIPReclaim (cache : List (String × OldPodEvent)) (key : String) : Bool :=
  match cache.lookup key with
  | some ev => !ev.IsEIPReclaimDisabled
  | none => true

/-- The ENI-client call that generation's `Delete` can issue. -/
inductive EniOp where
  | disassociatePod (key : String)
  deriving DecidableEq, Repr

/-- The outcome of the reclaim-aware `Handler.Delete`. -/
structure OldDeleteResult where
  res : Except String Unit
  cache : List (String × OldPodEvent)
  ops : List EniOp
  deriving Repr

/-- `Handler.Delete` of the reclaim-aware generation: disassociate only when
reclaim is enabled for the key, then drop the key's memo.  `eniErr` models
the ENI client's return value when the call is issued. -/
def oldHandlerDelete (eniErr : Option String) (cache : List (String × OldPodEvent))
    (key : String) : OldDeleteResult :=
  if isEnableEIPReclaim cache key then
    match eniErr with
    | some msg =>
      { res := .error msg, cache := cache, ops := [.disassociatePod key] }
    | none =>
      { res := .ok (), cache := cache.filter (fun kv => kv.1 != key)
        ops := [.disassociatePod key] }
  else
    { res := .ok (), cache := cache.filter (fun kv => kv.1 != key), ops := [] }

/-! ## The worker and its rate-limited queue (`pkg/k8s/worker.go`) -/

/-- `maxQueueRetries`. -/
def maxQueueRetries : Nat := 3

/-- The per-key failure counter of the workqueue rate limiter:
`NumRequeues` reads it, `AddRateLimited` increments it, `Forget` clears
it. -/
structure RLQueue where
  counts : List (String × Nat)
  deriving DecidableEq, Repr

/-- `queue.NumRequeues`. -/
def RLQueue.numRequeues (q : RLQueue) (key : String) : Nat :=
  (q.counts.lookup key).getD 0

/-- `queue.AddRateLimited`: re-add with backoff, counting the failure. -/
def RLQueue.addRateLimited (q : RLQueue) (key : String) : RLQueue :=
  { counts := (q.counts.filter (fun kv => kv.1 != key)) ++ [(key, q.numRequeues key + 1)] }

/-- `queue.Forget`: clear the key's failure count. -/
def RLQueue.forget (q : RLQueue) (key : String) : RLQueue :=
  { counts := q.counts.filter (fun kv => kv.1 != key) }

/-- What one `processNextItem` iteration did with the key. -/
inductive WorkerAct where
  | requeued (key : String)
  | forgotten (key : String)
  deriving DecidableEq, Repr

/-- The retry decision of `podWorker.processNextItem` once the item is
taken: on a handler error, requeue rate-limited while the key's retry count
is below `maxQueueRetries`, else forget; on success, forget. -/
def processNextItemStep (q : RLQueue) (key : String) (processErr : Bool) : RLQueue × WorkerAct :=
  let retries := q.numRequeues key
  if processErr then
    if retries < maxQueueRetries then (q.addRateLimited key, .requeued key)
    else (q.forget key, .forgotten key)
  else (q.forget key, .forgotten key)

/-- `n` consecutive `processNextItem` iterations on a key whose handler
fails every time, with the actions taken. -/
def failRun (key : String) : Nat → RLQueue → RLQueue × List WorkerAct
  | 0, q => (q, [])
  | n + 1, q =>
    let step := processNextItemStep q key true
    let rest := failRun key n step.1
    (rest.1, step.2 :: rest.2)

/-! ## Process exits (`src/unnamed/part_001`: leader election in `main`) -/

/-- An observable effect of the process. -/
inductive ProcEffect where
  | logMsg (msg : String)
  | exitCode (code : Nat)
  deriving DecidableEq, Repr

/-- The `OnStoppedLeading` callback: log, then `os.Exit(0)`. -/
def onStoppedLeading : List ProcEffect := [.logMsg "stop leading", .exitCode 0]

/-- A fatal initialisation failure (`logrus.Fatalln` / `os.Exit(1)` in
`main`): log, then exit 1. -/
def fatalInitEffects (msg : String) : List ProcEffect := [.logMsg msg, .exitCode 1]

/-! ## Concrete instances used by counterexamples and witnesses -/

/-- A client configuration for the examples. -/
def exCfg : EC2Cfg := { vpcID := "vpc-1", clusterName := "C" }

/-- A freshly scheduled `auto` pod: type annotation set, no labels yet. -/
def exPod : Pod :=
  { name := "p1", ns := "ns1", annots := [(PodEIPAnnotationKey, ValueAuto)],
    labels := [], podIP := "10.0.0.1", hostIP := "10.0.0.9", resourceVersion := "1" }

/-- The interface carrying the example pod's IP. -/
def exIface : NetIface :=
  { id := "eni-1", status := "in-use", privateIPs := ["10.0.0.1", "10.0.0.9"],
    vpcID := "vpc-1", instanceID := some "i-1", ipv4Prefixes := [] }

/-- A cloud with the example interface and no addresses. -/
def exState0 : EC2State := { addresses := [], ifaces := [exIface], nextID := 0 }

/-- An `auto` pod whose labels already match its annotations (the view an
update event carries after a successful reconciliation's label patch). -/
def exSteadyPod : Pod :=
  { name := "p1", ns := "ns1", annots := [(PodEIPAnnotationKey, ValueAuto)],
    labels := [(PodEIPTypeLabel, ValueAuto), (PodPublicIPLabel, "ip-0")],
    podIP := "10.0.0.1", hostIP := "10.0.0.9", resourceVersion := "2" }

/-- A fixed-tag pod with an IP: valid per `pkg.ValidPECType`, yet not
enqueued by the add filter. -/
def fixedTagPod : Pod :=
  { name := "p1", ns := "ns1", annots := [(PodEIPAnnotationKey, ValueFixedTag)],
    podIP := "10.0.0.1" }

/-- First of two associated EIPs owned by pod key `ns1/p1`. -/
def exOwnedA : EipAddress :=
  { allocationID := "eipalloc-a", associationID := some "assoc-a", privateIP := "10.0.0.1",
    publicIP := "ip-a",
    tags := [(TagTypeKey, ValueAuto), (TagClusterNameKey, "C"), (TagPodKey, "ns1/p1")] }

/-- Second associated EIP owned by the same pod key. -/
def exOwnedB : EipAddress :=
  { allocationID := "eipalloc-b", associationID := some "assoc-b", privateIP := "10.0.0.1",
    publicIP := "ip-b",
    tags := [(TagTypeKey, ValueAuto), (TagClusterNameKey, "C"), (TagPodKey, "ns1/p1")] }

/-- A cloud where two EIPs carry the same pod key. -/
def exDupState : EC2State := { addresses := [exOwnedA, exOwnedB], ifaces := [], nextID := 0 }

/-- A fixed-tag EIP associated to the example pod key (it also carries the
legacy fixed type tag, for the recycler conjunct). -/
def exFixedOwned : EipAddress :=
  { allocationID := "eipalloc-f", associationID := some "assoc-f", privateIP := "10.0.0.2",
    publicIP := "ip-f",
    tags := [(TagTypeKey, ValueFixedTag), (TagClusterNameKey, "C"), (TagPodKey, "ns1/p1"),
      (legacyTagTypeKey, ValueFixedTag), ("pool1", "")] }

/-- A cloud holding only the fixed-tag EIP. -/
def exFixedState : EC2State := { addresses := [exFixedOwned], ifaces := [], nextID := 0 }

/-- A leaked legacy `auto` EIP: associated, but its private IP belongs to no
live pod. -/
def exLeaked : EipAddress :=
  { allocationID := "eipalloc-l", associationID := some "assoc-l", privateIP := "10.0.0.3",
    publicIP := "ip-l",
    tags := [(legacyTagTypeKey, ValueAuto), (legacyTagClusterNameKey, "C")] }

/-- A cloud holding only the leaked legacy EIP. -/
def exLeakState : EC2State := { addresses := [exLeaked], ifaces := [], nextID := 0 }

/-- An allocated-but-unassociated legacy `auto` EIP: it matches the
recycler's tag filters while its association and private IP are nil, the
shape on which the Go marshalling dereferences nil pointers. -/
def exUnassocAuto : EipAddress :=
  { allocationID := "eipalloc-u", associationID := none, privateIP := "",
    publicIP := "ip-u",
    tags := [(legacyTagTypeKey, ValueAuto), (legacyTagClusterNameKey, "C")] }

/-- A cloud holding the unassociated auto EIP next to the leaked one: the
recycler pass panics here before issuing any write. -/
def exCrashState : EC2State :=
  { addresses := [exUnassocAuto, exLeaked], ifaces := [], nextID := 0 }

/-- The host's primary interface (carries the host IP, no prefixes). -/
def exHostIface : NetIface :=
  { id := "eni-host", status := "in-use", privateIPs := ["10.0.0.9"], vpcID := "vpc-1",
    instanceID := some "i-1", ipv4Prefixes := [] }

/-- A prefix-delegated interface on the same instance. -/
def exPfxIface : NetIface :=
  { id := "eni-pfx", status := "in-use", privateIPs := [], vpcID := "vpc-1",
    instanceID := some "i-1", ipv4Prefixes := ["10.0.1.0/28"] }

/-- A cloud where the pod IP is only reachable through the prefix
fallback. -/
def exPfxState : EC2State :=
  { addresses := [], ifaces := [exHostIface, exPfxIface], nextID := 0 }

/-- A memoised event whose annotations disable reclamation. -/
def exNoReclaimEvent : OldPodEvent :=
  { key := "ns1/p1", name := "p1", ns := "ns1",
    annots := [(PodEIPAnnotationKey, ValueAuto), (PodEIPReclaimKey, PodEIPReclaimVal)],
    labels := [], ip := "10.0.0.1", resourceVersion := "1" }

/-! ## Theorems -/

/-! ### Helper lemmas on the delete path -/

/-- In the transport-error-free model the client delete path always reports
success. -/
theorem clientDisassociate_res_ok (c : EC2Cfg) (key : String) (s : EC2State) :
    (clientDisassociateAddress c key s).res = .ok () := by
  unfold clientDisassociateAddress
  cases hd : describePodAddresses c s key with
  | nil => simp
  | cons addr rest =>
    cases ht : addr.tags.lookup TagTypeKey with
    | none => simp [ht, disassociateAddress]
    | some t =>
      by_cases h1 : t = ValueAuto
      · simp [ht, h1, disassociateAddress, releaseAddress]
      · by_cases h2 : t = ValueFixedTag
        · simp [ht, h1, h2, disassociateAddress, deleteTag, ValueAuto, ValueFixedTag]
        · by_cases h3 : t = ValueFixedTagValue
          · simp [ht, h1, h2, h3, disassociateAddress, deleteTag, ValueAuto, ValueFixedTag,
              ValueFixedTagValue]
          · simp [ht, h1, h2, h3, disassociateAddress]

/-- The write trace of the client delete path: nothing without an owned
address, otherwise `deleteOpsFor` of the first owned address. -/
theorem clientDisassociate_ops_eq (c : EC2Cfg) (key : String) (s : EC2State) :
    (clientDisassociateAddress c key s).ops =
      (match describePodAddresses c s key with
        | [] => []
        | addr :: _ => deleteOpsFor addr) := by
  unfold clientDisassociateAddress
  cases hd : describePodAddresses c s key with
  | nil => simp
  | cons addr rest =>
    cases ht : addr.tags.lookup TagTypeKey with
    | none => simp [deleteOpsFor, ht, disassociateAddress]
    | some t =>
      by_cases h1 : t = ValueAuto
      · simp [deleteOpsFor, ht, h1, disassociateAddress, releaseAddress]
      · by_cases h2 : t = ValueFixedTag
        · simp [deleteOpsFor, ht, h1, h2, disassociateAddress, deleteTag, ValueAuto, ValueFixedTag]
        · by_cases h3 : t = ValueFixedTagValue
          · simp [deleteOpsFor, ht, h1, h2, h3, disassociateAddress, deleteTag, ValueAuto,
              ValueFixedTag, ValueFixedTagValue]
          · simp [deleteOpsFor, ht, h1, h2, h3, disassociateAddress]

/-- `Handler.Delete` builds its event from the empty pod, whose label set is
empty, so the removal patch list is empty and the outcome is exactly the
client call's. -/
theorem handlerDelete_eq (c : EC2Cfg) (key : String) (s : EC2State) :
    handlerDelete c key s =
      { res := .ok (), state := (clientDisassociateAddress c key s).state,
        ops := (clientDisassociateAddress c key s).ops } := by
  unfold handlerDelete handlerDisassociateAddress
  simp [NewPodEvent, removalLabelPatches, PodEvent.GetPECTypeLbl,
    PodEvent.GetAddressPoolIdLbl, PodEvent.GetPublicIPLbl, PodEvent.GetFixedTagLbl,
    PodEvent.GetFixedTagValueLbl, clientDisassociate_res_ok]

/-- An address whose association id differs survives a disassociation
unchanged. -/
theorem mem_after_disassociate (s : EC2State) (assocID : String) (a : EipAddress)
    (ha : a ∈ s.addresses) (h : a.associationID ≠ some assocID) :
    a ∈ (disassociateAddress s assocID).state.addresses := by
  simp only [disassociateAddress]
  exact List.mem_map.mpr ⟨a, ha, by simp [h]⟩

/-- An address with a different allocation id survives a release. -/
theorem mem_after_release (s : EC2State) (allocID : String) (a : EipAddress)
    (ha : a ∈ s.addresses) (h : a.allocationID ≠ allocID) :
    a ∈ (releaseAddress s allocID).state.addresses := by
  simp only [releaseAddress]
  exact List.mem_filter.mpr ⟨ha, by simp [h]⟩

/-- An address with a different allocation id survives a tag deletion. -/
theorem mem_after_deleteTag (s : EC2State) (res : String) (keys : List String) (a : EipAddress)
    (ha : a ∈ s.addresses) (h : a.allocationID ≠ res) :
    a ∈ (deleteTag s res keys).state.addresses := by
  simp only [deleteTag]
  exact List.mem_map.mpr ⟨a, ha, by simp [h]⟩

/-- Every address `describePodAddresses` reports is associated. -/
theorem describePodAddresses_isSome (c : EC2Cfg) (key : String) (s : EC2State)
    (addr : EipAddress) (h : addr ∈ describePodAddresses c s key) :
    addr.associationID.isSome = true := by
  have h2 := (List.mem_filter.mp h).2
  simp only [Bool.and_eq_true] at h2
  exact h2.2

/-- The delete path leaves every address other than the first owned one (by
allocation and association id) in the cloud state. -/
theorem clientDisassociate_frame (c : EC2Cfg) (key : String) (s : EC2State)
    (addr : EipAddress) (rest : List EipAddress)
    (hd : describePodAddresses c s key = addr :: rest)
    (a : EipAddress) (ha : a ∈ s.addresses)
    (halloc : a.allocationID ≠ addr.allocationID)
    (hassoc : a.associationID ≠ addr.associationID) :
    a ∈ (clientDisassociateAddress c key s).state.addresses := by
  have haddr : addr ∈ describePodAddresses c s key := by
    rw [hd]; exact List.mem_cons_self _ _
  have hsome := describePodAddresses_isSome c key s addr haddr
  obtain ⟨x, hx⟩ := Option.isSome_iff_exists.mp hsome
  have hne : a.associationID ≠ some (addr.associationID.getD "") := by
    rw [hx]
    simpa [hx] using hassoc
  have h1 : a ∈ (disassociateAddress s (addr.associationID.getD "")).state.addresses :=
    mem_after_disassociate _ _ _ ha hne
  unfold clientDisassociateAddress
  simp only [hd]
  cases ht : addr.tags.lookup TagTypeKey with
  | none => simp only [ht]; exact h1
  | some t =>
    by_cases h1' : t = ValueAuto
    · simp only [ht, h1', ValueAuto]
      simp only [beq_self_eq_true, if_true]
      exact mem_after_release _ _ _ h1 halloc
    · by_cases h2' : t = ValueFixedTag
      · simp only [ht, h2', ValueFixedTag, ValueAuto]
        simp
        exact mem_after_deleteTag _ _ _ _ h1 halloc
      · by_cases h3' : t = ValueFixedTagValue
        · simp only [ht, h3', ValueFixedTagValue, ValueFixedTag, ValueAuto]
          simp
          exact mem_after_deleteTag _ _ _ _ h1 halloc
        · simp only [ht]
          have hb1 : (t == ValueAuto) = false := by simp [h1']
          have hb2 : (t == ValueFixedTag) = false := by simp [h2']
          have hb3 : (t == ValueFixedTagValue) = false := by simp [h3']
          simp only [hb1, hb2, hb3, Bool.false_or, if_false]
          exact h1

/-- The delete path never emits a label patch op. -/
theorem deleteOpsFor_no_patch (addr : EipAddress) :
    ∀ op ∈ deleteOpsFor addr, op.isPatchPod = false := by
  intro op hop
  unfold deleteOpsFor at hop
  rcases List.mem_cons.mp hop with rfl | hop2
  · rfl
  · cases ht : addr.tags.lookup TagTypeKey with
    | none => simp [ht] at hop2
    | some t =>
      simp only [ht] at hop2
      by_cases h1 : (t == ValueAuto) = true
      · rw [if_pos h1] at hop2
        simp at hop2
        subst hop2; rfl
      · rw [if_neg h1] at hop2
        by_cases h2 : (t == ValueFixedTag || t == ValueFixedTagValue) = true
        · rw [if_pos h2] at hop2
          simp at hop2
          subst hop2; rfl
        · rw [if_neg h2] at hop2
          simp at hop2

/-- A release issued by the delete path names the first owned address and
only happens for the `auto` type tag. -/
theorem deleteOpsFor_release (addr : EipAddress) (rid : String)
    (h : CloudOp.release rid ∈ deleteOpsFor addr) :
    rid = addr.allocationID ∧ addr.tags.lookup TagTypeKey = some ValueAuto := by
  unfold deleteOpsFor at h
  rcases List.mem_cons.mp h with heq | h2
  · exact absurd heq (by simp)
  · cases ht : addr.tags.lookup TagTypeKey with
    | none => simp [ht] at h2
    | some t =>
      simp only [ht] at h2
      by_cases h1 : (t == ValueAuto) = true
      · rw [if_pos h1] at h2
        simp at h2
        exact ⟨h2, congrArg some (eq_of_beq h1)⟩
      · rw [if_neg h1] at h2
        by_cases hb2 : (t == ValueFixedTag || t == ValueFixedTagValue) = true
        · rw [if_pos hb2] at h2
          simp at h2
        · rw [if_neg hb2] at h2
          simp at h2

/-! ### Helper lemmas on the recycler -/

/-- The recycler's per-address writes do not depend on the accumulated
state. -/
theorem recycleAddress_ops (live : List String) (isSub : Bool) (protections : List String)
    (s : EC2State) (a : LegacyAddress) :
    (recycleAddress live isSub protections s a).2 = recycleOpsFor live isSub protections a := by
  unfold recycleAddress recycleOpsFor
  split
  · rfl
  · split
    · rfl
    · simp [disassociateAddress, releaseAddress]

/-- Trace of the recycler's fold, with an arbitrary accumulator. -/
theorem recyclePass_go (live : List String) (isSub : Bool) (protections : List String) :
    ∀ (l : List LegacyAddress) (s : EC2State) (acc : List CloudOp),
      (l.foldl (fun acc2 a =>
          let step := recycleAddress live isSub protections acc2.1 a
          (step.1, acc2.2 ++ step.2)) (s, acc)).2
        = acc ++ l.flatMap (recycleOpsFor live isSub protections) := by
  intro l
  induction l with
  | nil => intro s acc; simp
  | cons a l ih =>
    intro s acc
    simp only [List.foldl_cons, List.flatMap_cons]
    rw [ih]
    rw [recycleAddress_ops]
    simp [List.append_assoc]

/-- A recycler pass crashes exactly when the report marshalling does. -/
theorem recyclePass_none_iff (clusterName : String) (live : List String) (isSub : Bool)
    (protections : List String) (s : EC2State) :
    recyclePass clusterName live isSub protections s = none ↔
      describeUsedAddresses clusterName s = none := by
  unfold recyclePass
  cases hd : describeUsedAddresses clusterName s <;> simp

/-- Every address of a successfully marshalled report comes from a cloud
address carrying the legacy `auto` and cluster tags, with the same
allocation id. -/
theorem describeUsedAddresses_some (clusterName : String) (s : EC2State)
    (addrs : List LegacyAddress) (h : describeUsedAddresses clusterName s = some addrs) :
    ∀ la ∈ addrs, ∃ b ∈ s.addresses,
      b.allocationID = la.allocationID
        ∧ b.tags.lookup legacyTagTypeKey = some ValueAuto
        ∧ b.tags.lookup legacyTagClusterNameKey = some clusterName := by
  simp only [describeUsedAddresses] at h
  split at h
  · injection h with haddrs
    intro la hla
    rw [← haddrs] at hla
    rcases List.mem_map.mp hla with ⟨b, hb, hba⟩
    have hbmem := (List.mem_filter.mp hb).1
    have hbpred := (List.mem_filter.mp hb).2
    simp only [Bool.and_eq_true, beq_iff_eq] at hbpred
    exact ⟨b, hbmem, by rw [← hba], hbpred.1, hbpred.2⟩
  · simp at h

/-- The write trace of one completed (non-crashing) recycler pass. -/
theorem recyclePass_ops (clusterName : String) (live : List String) (isSub : Bool)
    (protections : List String) (s : EC2State) (addrs : List LegacyAddress)
    (h : describeUsedAddresses clusterName s = some addrs) :
    (recyclePass clusterName live isSub protections s).map Prod.snd
      = some (addrs.flatMap (recycleOpsFor live isSub protections)) := by
  unfold recyclePass
  rw [h]
  simp [recyclePass_go live isSub protections addrs s []]

/-- A release in the recycler's per-address writes names that address. -/
theorem recycleOpsFor_release (live : List String) (isSub : Bool) (protections : List String)
    (la : LegacyAddress) (rid : String)
    (h : CloudOp.release rid ∈ recycleOpsFor live isSub protections la) :
    rid = la.allocationID := by
  unfold recycleOpsFor at h
  split at h
  · simp at h
  · split at h
    · simp at h
    · rcases List.mem_append.mp h with h' | h'
      · split at h' <;> simp at h'
      · simpa using h'

/-- Every release a completed recycler pass issues names a cloud address
whose legacy type tag is `auto`. -/
theorem recycle_release_mem (clusterName : String) (live : List String) (isSub : Bool)
    (protections : List String) (s s2 : EC2State) (ops : List CloudOp) (rid : String)
    (hpass : recyclePass clusterName live isSub protections s = some (s2, ops))
    (h : CloudOp.release rid ∈ ops) :
    ∃ b ∈ s.addresses, b.allocationID = rid
      ∧ b.tags.lookup legacyTagTypeKey = some ValueAuto := by
  unfold recyclePass at hpass
  cases hd : describeUsedAddresses clusterName s with
  | none => rw [hd] at hpass; simp at hpass
  | some addrs =>
    rw [hd] at hpass
    injection hpass with hpair
    have hops : ops = addrs.flatMap (recycleOpsFor live isSub protections) := by
      have h2 : (addrs.foldl (fun acc a =>
          let step := recycleAddress live isSub protections acc.1 a
          (step.1, acc.2 ++ step.2)) (s, [])).2 = ops := congrArg Prod.snd hpair
      rw [recyclePass_go] at h2
      simpa using h2.symm
    rw [hops] at h
    rcases List.mem_flatMap.mp h with ⟨la, hla, hop⟩
    have hr := recycleOpsFor_release live isSub protections la rid hop
    rcases describeUsedAddresses_some clusterName s addrs hd la hla with
      ⟨b, hbmem, hbid, hbauto, _⟩
    exact ⟨b, hbmem, hbid.trans hr.symm, hbauto⟩

/-! ### Claim theorems on the delete path and recycler -/

/-- C2: an EIP whose controller type tag is `fixed-tag` or `fixed-tag-value`
is never released: the reconciler's delete path does not release it (it only
disassociates and removes the three controller tags from the first owned
address), and the recycler, whose input is filtered to legacy type tag
`auto`, never releases an EIP whose legacy type tag is a fixed type in any
completed pass (a pass that crashes in the report marshalling issues no
write at all). -/
theorem fixed_eip_never_released (c : EC2Cfg) (podKey : String) (s : EC2State)
    (live : List String) (isSub : Bool) (protections : List String) (a : EipAddress)
    (ha : a ∈ s.addresses)
    (hnd : (s.addresses.map EipAddress.allocationID).Nodup) :
    ((a.tags.lookup TagTypeKey = some ValueFixedTag
        ∨ a.tags.lookup TagTypeKey = some ValueFixedTagValue) →
      CloudOp.release a.allocationID ∉ (handlerDelete c podKey s).ops)
    ∧ (∀ addr rest, describePodAddresses c s podKey = addr :: rest →
        (addr.tags.lookup TagTypeKey = some ValueFixedTag
          ∨ addr.tags.lookup TagTypeKey = some ValueFixedTagValue) →
        (handlerDelete c podKey s).ops =
          [.disassociate (addr.associationID.getD ""),
            .deleteTags addr.allocationID [TagPodKey, TagTypeKey, TagClusterNameKey]])
    ∧ ((a.tags.lookup legacyTagTypeKey = some ValueFixedTag
          ∨ a.tags.lookup legacyTagTypeKey = some ValueFixedTagValue) →
        ∀ s2 ops, recyclePass c.clusterName live isSub protections s = some (s2, ops) →
          CloudOp.release a.allocationID ∉ ops) := by
  refine ⟨?_, ?_, ?_⟩
  · intro hfix hmem
    rw [handlerDelete_eq] at hmem
    simp only [clientDisassociate_ops_eq] at hmem
    cases hd : describePodAddresses c s podKey with
    | nil => rw [hd] at hmem; simp at hmem
    | cons addr rest =>
      rw [hd] at hmem
      simp only at hmem
      rcases deleteOpsFor_release addr a.allocationID hmem with ⟨hid, hauto⟩
      have haddrmem : addr ∈ s.addresses := by
        have hmem2 : addr ∈ describePodAddresses c s podKey := by
          rw [hd]; exact List.mem_cons_self _ _
        exact (List.mem_filter.mp hmem2).1
      have heq : a = addr :=
        List.inj_on_of_nodup_map hnd ha haddrmem hid
      rw [heq] at hfix
      rcases hfix with hf | hf <;> rw [hauto] at hf <;>
        simp [ValueAuto, ValueFixedTag, ValueFixedTagValue] at hf
  · intro addr rest hd hfix
    rw [handlerDelete_eq]
    simp only [clientDisassociate_ops_eq, hd]
    unfold deleteOpsFor
    rcases hfix with hf | hf <;>
      simp [hf, ValueAuto, ValueFixedTag, ValueFixedTagValue]
  · intro hfix s2 ops hpass hmem
    rcases recycle_release_mem c.clusterName live isSub protections s s2 ops a.allocationID
        hpass hmem with ⟨b, hb, hbid, hbauto⟩
    have heq : b = a :=
      List.inj_on_of_nodup_map hnd hb ha hbid
    rw [heq] at hbauto
    rcases hfix with hf | hf <;> rw [hbauto] at hf <;>
      simp [ValueAuto, ValueFixedTag, ValueFixedTagValue] at hf

/-- C2 witness: the fixed-tag example EIP is untouched by a delete of its
pod key and by the completed recycler pass on its cloud. -/
theorem fixed_eip_never_released_wit :
    CloudOp.release exFixedOwned.allocationID ∉
        (handlerDelete exCfg "ns1/p1" exFixedState).ops
      ∧ CloudOp.release exFixedOwned.allocationID ∉ ([] : List CloudOp) :=
  ⟨(fixed_eip_never_released exCfg "ns1/p1" exFixedState [] false [] exFixedOwned
      (by decide) (by decide)).1 (Or.inl (by decide)),
    (fixed_eip_never_released exCfg "ns1/p1" exFixedState [] false [] exFixedOwned
      (by decide) (by decide)).2.2 (Or.inl (by decide)) exFixedState [] (by decide)⟩

/-- C9 counterexample: the crash cloud holds an address the claim obliges
the pass to disassociate and release (associated, private IP not live), and
another that matches the recycler's tag filters while unassociated; the pass
panics in the report marshalling (`none`) and issues no write at all, so the
claimed disassociate-then-release does not happen. -/
theorem recycler_crash_cex :
    (∃ a ∈ exCrashState.addresses,
        a.tags.lookup legacyTagTypeKey = some ValueAuto
          ∧ a.tags.lookup legacyTagClusterNameKey = some "C"
          ∧ a.associationID.isSome = true
          ∧ a.privateIP ∉ ([] : List String))
      ∧ (∃ b ∈ exCrashState.addresses,
          b.tags.lookup legacyTagTypeKey = some ValueAuto
            ∧ b.tags.lookup legacyTagClusterNameKey = some "C"
            ∧ b.associationID = none)
      ∧ recyclePass "C" [] false [] exCrashState = none := by
  decide

/-- C9 (amended): the pass crashes exactly when some tag-matching address is
unassociated (the marshalling dereferences nil before any write); on a
successfully marshalled report whose associated entries carry a private IP,
one pass disassociates, releases and then sleeps 5 seconds for exactly the
reported addresses whose association is non-empty and whose private IP is
not live, touching nothing else; and a configured period of 0 runs the scan
exactly once. -/
theorem recycler_pass_spec (clusterName : String) (live : List String) (isSub : Bool)
    (protections : List String) (s : EC2State) :
    (recyclePass clusterName live isSub protections s = none ↔
        describeUsedAddresses clusterName s = none)
      ∧ (∀ addrs, describeUsedAddresses clusterName s = some addrs →
          (∀ la ∈ addrs, la.associationID ≠ "" → la.privateIpAddress ≠ "") →
          (recyclePass clusterName live isSub protections s).map Prod.snd
            = some (addrs.flatMap (fun a =>
                if a.associationID != "" && !live.contains a.privateIpAddress then
                  (if isSub && protections.contains a.allocationID
                    then [CloudOp.shieldDelete a.allocationID] else [])
                    ++ [.disassociate a.associationID, .release a.allocationID, .sleep 5]
                else [])))
      ∧ (∀ fuel : Nat, recyclePassCount 0 (fuel + 1) = 1) := by
  refine ⟨recyclePass_none_iff clusterName live isSub protections s, ?_, ?_⟩
  · intro addrs hok hwf
    rw [recyclePass_ops clusterName live isSub protections s addrs hok]
    congr 1
    apply List.flatMap_congr
    intro la hla
    have hw := hwf la hla
    unfold recycleOpsFor
    by_cases ha : la.associationID = ""
    · simp [ha]
    · have hp : la.privateIpAddress ≠ "" := hw ha
      by_cases hl : live.contains la.privateIpAddress
      · simp [ha, hp, hl]
      · simp [ha, hp, hl]
  · intro fuel
    simp [recyclePassCount]

/-- C9 witness: on the leaked example cloud the report marshals, and the
leaked address is disassociated, released and followed by the throttling
sleep in the one pass. -/
theorem recycler_pass_spec_wit :
    (recyclePass "C" ["10.0.0.9"] false [] exLeakState).map Prod.snd
      = some (([⟨"eipalloc-l", "assoc-l", "10.0.0.3"⟩] : List LegacyAddress).flatMap
          (fun a =>
            if a.associationID != "" && !(["10.0.0.9"] : List String).contains a.privateIpAddress
            then
              (if false && ([] : List String).contains a.allocationID
                then [CloudOp.shieldDelete a.allocationID] else [])
                ++ [.disassociate a.associationID, .release a.allocationID, .sleep 5]
            else [])) :=
  (recycler_pass_spec "C" ["10.0.0.9"] false [] exLeakState).2.1
    [⟨"eipalloc-l", "assoc-l", "10.0.0.3"⟩] (by decide) (by decide)

/-- C5 counterexample: a pod annotated `fixed-tag` with a non-empty status
IP is a valid PEC type, yet `addAddEvent` does not enqueue it: the add
filter compares against the legacy constant `"auto"` only. -/
theorem addAddEvent_fixed_tag_cex :
    addAddEvent fixedTagPod = false
      ∧ ValidPECType ValueFixedTag = true
      ∧ fixedTagPod.podIP ≠ "" := by
  decide

/-- C5 (amended): the add filter enqueues a pod if and only if its type
annotation equals the legacy value `"auto"` and its status IP is non-empty;
pods with the other valid types are not enqueued on add. -/
theorem addAddEvent_iff_auto_and_ip (pod : Pod) :
    addAddEvent pod =
      ((pod.annots.lookup PodEIPAnnotationKey == some PodEIPAnnotationValue)
        && (pod.podIP != "")) := by
  unfold addAddEvent
  cases h : pod.annots.lookup PodEIPAnnotationKey <;> simp [h]

/-- C6 counterexample: `OnStoppedLeading` exits with status code 0, not with
the non-zero code the claim states. -/
theorem stoppedLeading_exit_zero_cex :
    ProcEffect.exitCode 0 ∈ onStoppedLeading ∧ ProcEffect.exitCode 1 ∉ onStoppedLeading := by
  decide

/-- C6 (amended): on losing leadership the process exits with status code 0
(the only exit it performs), while fatal initialisation failures exit with
code 1. -/
theorem stoppedLeading_exit_code_zero :
    (∀ code, ProcEffect.exitCode code ∈ onStoppedLeading → code = 0)
      ∧ ProcEffect.exitCode 0 ∈ onStoppedLeading
      ∧ (∀ msg, ProcEffect.exitCode 1 ∈ fatalInitEffects msg) := by
  refine ⟨?_, by decide, ?_⟩
  · intro code h
    simpa [onStoppedLeading] using h
  · intro msg
    simp [fatalInitEffects]

/-- C6 witness: the amended theorem applied to the exit the callback
performs. -/
theorem stoppedLeading_exit_code_zero_wit :
    ProcEffect.exitCode 0 ∈ onStoppedLeading ∧ (0 : Nat) = 0 :=
  ⟨stoppedLeading_exit_code_zero.2.1,
    stoppedLeading_exit_code_zero.1 0 stoppedLeading_exit_code_zero.2.1⟩

/-- C8: a key whose handler fails persistently is requeued exactly while its
retry count is below `maxQueueRetries` (3): four consecutive failures from a
fresh key give three rate-limited requeues and then a forget that clears the
count, and a failing iteration requeues the key if and only if its count is
below the cap. -/
theorem worker_retry_cap (key : String) :
    (failRun key 4 { counts := [] } =
      ({ counts := [] },
        [.requeued key, .requeued key, .requeued key, .forgotten key]))
      ∧ (∀ q : RLQueue, maxQueueRetries ≤ q.numRequeues key →
          processNextItemStep q key true = (q.forget key, .forgotten key))
      ∧ (∀ q : RLQueue, (processNextItemStep q key true).2 = .requeued key ↔
          q.numRequeues key < maxQueueRetries) := by
  refine ⟨?_, ?_, ?_⟩
  · simp [failRun, processNextItemStep, RLQueue.numRequeues, RLQueue.addRateLimited,
      RLQueue.forget, maxQueueRetries, List.lookup]
  · intro q h
    simp [processNextItemStep, Nat.not_lt.mpr h]
  · intro q
    by_cases hlt : q.numRequeues key < maxQueueRetries
    · simp [processNextItemStep, hlt]
    · simp [processNextItemStep, hlt]

/-- C8 witness: at the cap the key is forgotten, not requeued. -/
theorem worker_retry_cap_wit :
    processNextItemStep { counts := [("default/test", 3)] } "default/test" true =
      (RLQueue.forget { counts := [("default/test", 3)] } "default/test",
        WorkerAct.forgotten "default/test") :=
  (worker_retry_cap "default/test").2.1 { counts := [("default/test", 3)] } (by decide)

/-- C1 counterexample: reconciling the identical fresh `auto` pod view a
second time after a first successful call is not write-free: `hasChange`
still reports drift (the view's labels are stale), so the second pass
disassociates, releases, allocates and associates again. -/
theorem addOrUpdate_second_pass_writes_cex :
    exceptOk (handlerAddOrUpdate exCfg "ns1/p1" exPod exState0).res = true
      ∧ ((handlerAddOrUpdate exCfg "ns1/p1" exPod
            (handlerAddOrUpdate exCfg "ns1/p1" exPod exState0).state).ops.filter
          CloudOp.isCloudWrite) ≠ [] := by
  decide

/-- C1 (amended): a repeated `add_or_update` issues zero cloud writes
exactly when the Pod view shows no annotation/label drift (`hasChange`
false, as holds for the view the informer delivers after the first call's
label patch) or has no IP; with drift, the identical stale view repeats the
reconciliation's cloud writes. -/
theorem addOrUpdate_noDrift_no_cloud_writes (c : EC2Cfg) (key : String) (pod : Pod)
    (s : EC2State)
    (h : pod.podIP = "" ∨ hasChange (NewPodEvent key pod) = false) :
    handlerAddOrUpdate c key pod s = { res := .ok (), state := s, ops := [] } := by
  rcases h with h | h
  · simp [handlerAddOrUpdate, h]
  · by_cases hip : pod.podIP = ""
    · simp [handlerAddOrUpdate, hip]
    · simp [handlerAddOrUpdate, hip, h]

/-- C1 witness: the steady view (labels matching annotations) reconciles
with no writes at all. -/
theorem addOrUpdate_noDrift_no_cloud_writes_wit :
    handlerAddOrUpdate exCfg "ns1/p1" exSteadyPod exState0 =
      { res := .ok (), state := exState0, ops := [] } :=
  addOrUpdate_noDrift_no_cloud_writes exCfg "ns1/p1" exSteadyPod exState0 (Or.inr (by decide))

/-- C3 counterexample: with two associated EIPs tagged `pod=ns1/p1`, the
delete succeeds yet an EIP tagged with that pod key remains: only the first
owned address is processed. -/
theorem delete_second_tagged_eip_remains_cex :
    exceptOk (handlerDelete exCfg "ns1/p1" exDupState).res = true
      ∧ (handlerDelete exCfg "ns1/p1" exDupState).state.addresses.any
          (fun a => a.tags.lookup TagPodKey == some "ns1/p1") = true := by
  decide

/-- C3 (amended): the delete operation processes exactly the first
associated address owned by the pod key — disassociating it, releasing it
when its type tag is `auto` and removing the controller tags for the fixed
types — and leaves every other address (distinct allocation and association
ids) untouched. -/
theorem delete_processes_first_owned_address (c : EC2Cfg) (key : String) (s : EC2State)
    (addr : EipAddress) (rest : List EipAddress)
    (hd : describePodAddresses c s key = addr :: rest) :
    exceptOk (handlerDelete c key s).res = true
      ∧ (handlerDelete c key s).ops = deleteOpsFor addr
      ∧ ∀ a ∈ s.addresses, a.allocationID ≠ addr.allocationID →
          a.associationID ≠ addr.associationID →
          a ∈ (handlerDelete c key s).state.addresses := by
  refine ⟨?_, ?_, ?_⟩
  · rw [handlerDelete_eq]
    rfl
  · rw [handlerDelete_eq]
    simp only [clientDisassociate_ops_eq, hd]
  · intro a ha h1 h2
    rw [handlerDelete_eq]
    exact clientDisassociate_frame c key s addr rest hd a ha h1 h2

/-- C3 witness: the amended theorem at the duplicate-ownership example. -/
theorem delete_processes_first_owned_address_wit :
    exceptOk (handlerDelete exCfg "ns1/p1" exDupState).res = true
      ∧ (handlerDelete exCfg "ns1/p1" exDupState).ops = deleteOpsFor exOwnedA
      ∧ ∀ a ∈ exDupState.addresses, a.allocationID ≠ exOwnedA.allocationID →
          a.associationID ≠ exOwnedA.associationID →
          a ∈ (handlerDelete exCfg "ns1/p1" exDupState).state.addresses :=
  delete_processes_first_owned_address exCfg "ns1/p1" exDupState exOwnedA [exOwnedB] (by decide)

/-- C4: when the key's last observed annotations disable reclamation —
`reclaim = "false"`, or no reclaim annotation and `mode = "fixed"` — the
delete entry point returns success without issuing any ENI-client call, so
nothing is disassociated or released. -/
theorem reclaim_disabled_delete_noop (eniErr : Option String)
    (cache : List (String × OldPodEvent)) (key : String) (ev : OldPodEvent)
    (hc : cache.lookup key = some ev)
    (hdis : ev.annots.lookup PodEIPReclaimKey = some PodEIPReclaimVal
        ∨ (ev.annots.lookup PodEIPReclaimKey = none
            ∧ ev.annots.lookup PodEIPModeKey = some PodEIPModeVal)) :
    (oldHandlerDelete eniErr cache key).res = .ok ()
      ∧ (oldHandlerDelete eniErr cache key).ops = [] := by
  have hdisabled : ev.IsEIPReclaimDisabled = true := by
    unfold OldPodEvent.IsEIPReclaimDisabled
    rcases hdis with h | ⟨h1, h2⟩
    · simp [h]
    · simp [h1, h2]
  have henable : isEnableEIPReclaim cache key = false := by
    simp [isEnableEIPReclaim, hc, hdisabled]
  simp [oldHandlerDelete, henable]

/-- C4 witness: a memo carrying `reclaim = "false"` makes delete a no-op. -/
theorem reclaim_disabled_delete_noop_wit :
    (oldHandlerDelete none [("ns1/p1", exNoReclaimEvent)] "ns1/p1").res = .ok ()
      ∧ (oldHandlerDelete none [("ns1/p1", exNoReclaimEvent)] "ns1/p1").ops = [] :=
  reclaim_disabled_delete_noop none [("ns1/p1", exNoReclaimEvent)] "ns1/p1" exNoReclaimEvent
    (by decide) (Or.inl (by decide))

/-- C10: the delete entry point issues exactly the cloud-side writes of the
client disassociation and never a pod label patch: its event is built from
the empty pod, every label lookup reports absent, and the removal patch list
is empty. -/
theorem delete_never_patches_labels (c : EC2Cfg) (key : String) (s : EC2State) :
    (handlerDelete c key s).ops = (clientDisassociateAddress c key s).ops
      ∧ ∀ op ∈ (handlerDelete c key s).ops, op.isPatchPod = false := by
  have hops : (handlerDelete c key s).ops = (clientDisassociateAddress c key s).ops := by
    rw [handlerDelete_eq]
  refine ⟨hops, ?_⟩
  rw [hops, clientDisassociate_ops_eq]
  cases hd : describePodAddresses c s key with
  | nil => simp
  | cons addr rest => exact deleteOpsFor_no_patch addr

/-- C10 witness: at the duplicate-ownership example the delete trace is the
client trace (and so patch-free). -/
theorem delete_never_patches_labels_wit :
    (handlerDelete exCfg "ns1/p1" exDupState).ops =
      (clientDisassociateAddress exCfg "ns1/p1" exDupState).ops ∧ (0 : Nat) = 0 :=
  ⟨(delete_never_patches_labels exCfg "ns1/p1" exDupState).1, rfl⟩

/-- A hit of the prefix loop lies in the scanned list and has a containing
prefix. -/
theorem findIfaceByPfx_some (ip : String) :
    ∀ (l : List NetIface) (ni : NetIface), findIfaceByPfx ip l = some ni →
      ni ∈ l ∧ ni.ipv4Prefixes.any (fun pfx => cidrContains pfx ip) = true := by
  intro l
  induction l with
  | nil => intro ni h; simp [findIfaceByPfx] at h
  | cons x xs ih =>
    intro ni h
    unfold findIfaceByPfx at h
    by_cases hx : x.ipv4Prefixes.any (fun pfx => cidrContains pfx ip) = true
    · rw [if_pos hx] at h
      cases h
      exact ⟨List.mem_cons_self _ _, hx⟩
    · rw [if_neg hx] at h
      rcases ih ni h with ⟨hmem, hany⟩
      exact ⟨List.mem_cons_of_mem _ hmem, hany⟩

/-- The prefix loop misses exactly when no scanned interface has a
containing prefix. -/
theorem findIfaceByPfx_none (ip : String) :
    ∀ (l : List NetIface), findIfaceByPfx ip l = none ↔
      ∀ ni ∈ l, ni.ipv4Prefixes.any (fun pfx => cidrContains pfx ip) = false := by
  intro l
  induction l with
  | nil => simp [findIfaceByPfx]
  | cons x xs ih =>
    unfold findIfaceByPfx
    by_cases hx : x.ipv4Prefixes.any (fun pfx => cidrContains pfx ip) = true
    · rw [if_pos hx]
      constructor
      · intro h
        exact absurd h (by simp)
      · intro h
        exact absurd (h x (List.mem_cons_self _ _)) (by simp [hx])
    · rw [if_neg hx]
      simp only [ih]
      constructor
      · intro h ni hni
        rcases List.mem_cons.mp hni with rfl | hni2
        · exact Bool.not_eq_true _ |>.mp hx
        · exact h ni hni2
      · intro h ni hni
        exact h ni (List.mem_cons_of_mem _ hni)

/-- C7: the interface lookup returns the first interface carrying the
private IP when that query has results; only when it has none does it fall
back through the host IP's interface and its attached instance, returning an
interface of that instance one of whose IPv4 prefixes contains the private
IP; and it fails exactly when the primary query and every fallback are
exhausted. -/
theorem find_interface_fallback_spec (c : EC2Cfg) (s : EC2State) (privateIP hostIP : String) :
    (∀ ni rest, describeNIsByIP s c.vpcID privateIP = ni :: rest →
        getNetworkInterface c s privateIP hostIP = .ok ni)
      ∧ (describeNIsByIP s c.vpcID privateIP = [] →
          ∀ ni, getNetworkInterface c s privateIP hostIP = .ok ni →
            ∃ ni2 rest2 inst, describeNIsByIP s c.vpcID hostIP = ni2 :: rest2
              ∧ ni2.instanceID = some inst
              ∧ ni ∈ describeNIsByInstance s c.vpcID inst
              ∧ ni.ipv4Prefixes.any (fun pfx => cidrContains pfx privateIP) = true)
      ∧ (exceptOk (getNetworkInterface c s privateIP hostIP) = false ↔
          describeNIsByIP s c.vpcID privateIP = []
            ∧ (describeNIsByIP s c.vpcID hostIP = []
                ∨ ∃ ni2 rest2, describeNIsByIP s c.vpcID hostIP = ni2 :: rest2
                    ∧ (ni2.instanceID = none
                        ∨ ∃ inst, ni2.instanceID = some inst
                            ∧ ∀ ni3 ∈ describeNIsByInstance s c.vpcID inst,
                                ni3.ipv4Prefixes.any
                                  (fun pfx => cidrContains pfx privateIP) = false))) := by
  cases hq1 : describeNIsByIP s c.vpcID privateIP with
  | cons n1 r1 =>
    refine ⟨?_, ?_, ?_⟩
    · intro ni rest h
      unfold getNetworkInterface
      simp only [hq1]
      injection h with h1 _
      rw [h1]
    · intro h
      simp at h
    · unfold getNetworkInterface
      simp only [hq1]
      refine iff_of_false (by simp [exceptOk]) ?_
      intro hcon
      simp at hcon
  | nil =>
    cases hq2 : describeNIsByIP s c.vpcID hostIP with
    | nil =>
      refine ⟨?_, ?_, ?_⟩
      · intro ni rest h
        simp at h
      · intro _ ni h
        unfold getNetworkInterface at h
        simp only [hq1, hq2] at h
        exact absurd h (by simp)
      · unfold getNetworkInterface
        simp only [hq1, hq2]
        exact iff_of_true rfl ⟨by trivial, Or.inl (by trivial)⟩
    | cons n2 r2 =>
      cases hinst : n2.instanceID with
      | none =>
        refine ⟨?_, ?_, ?_⟩
        · intro ni rest h
          simp at h
        · intro _ ni h
          unfold getNetworkInterface at h
          simp only [hq1, hq2, hinst] at h
          exact absurd h (by simp)
        · unfold getNetworkInterface
          simp only [hq1, hq2, hinst]
          exact iff_of_true rfl ⟨by trivial, Or.inr ⟨n2, r2, rfl, Or.inl hinst⟩⟩
      | some inst =>
        cases hq3 : describeNIsByInstance s c.vpcID inst with
        | nil =>
          refine ⟨?_, ?_, ?_⟩
          · intro ni rest h
            simp at h
          · intro _ ni h
            unfold getNetworkInterface at h
            simp only [hq1, hq2, hinst, hq3] at h
            exact absurd h (by simp)
          · unfold getNetworkInterface
            simp only [hq1, hq2, hinst, hq3]
            refine iff_of_true rfl ⟨by trivial, Or.inr ⟨n2, r2, rfl, Or.inr ⟨inst, hinst, ?_⟩⟩⟩
            rw [hq3]
            intro ni3 h3
            simp at h3
        | cons n3 r3 =>
          cases hfind : findIfaceByPfx privateIP (n3 :: r3) with
          | some nf =>
            have hmem := findIfaceByPfx_some privateIP (n3 :: r3) nf hfind
            refine ⟨?_, ?_, ?_⟩
            · intro ni rest h
              simp at h
            · intro _ ni h
              unfold getNetworkInterface at h
              simp only [hq1, hq2, hinst, hq3, hfind] at h
              injection h with hni
              refine ⟨n2, r2, inst, rfl, hinst, ?_, ?_⟩
              · rw [hq3, ← hni]
                exact hmem.1
              · rw [← hni]
                exact hmem.2
            · unfold getNetworkInterface
              simp only [hq1, hq2, hinst, hq3, hfind]
              refine iff_of_false (by simp [exceptOk]) ?_
              intro hcon
              rcases hcon.2 with habs | ⟨ni2, rest2, heq, hrest⟩
              · simp at habs
              · injection heq with heq1 _
                rw [← heq1] at hrest
                rcases hrest with hnone | ⟨inst2, hinst2, hall⟩
                · rw [hinst] at hnone
                  cases hnone
                · rw [hinst] at hinst2
                  injection hinst2 with hinst3
                  rw [← hinst3] at hall
                  have hnf := hall nf (by rw [hq3]; exact hmem.1)
                  rw [hmem.2] at hnf
                  cases hnf
          | none =>
            refine ⟨?_, ?_, ?_⟩
            · intro ni rest h
              simp at h
            · intro _ ni h
              unfold getNetworkInterface at h
              simp only [hq1, hq2, hinst, hq3, hfind] at h
              exact absurd h (by simp)
            · unfold getNetworkInterface
              simp only [hq1, hq2, hinst, hq3, hfind]
              refine iff_of_true rfl ⟨by trivial, Or.inr ⟨n2, r2, rfl, Or.inr ⟨inst, hinst, ?_⟩⟩⟩
              rw [hq3]
              exact (findIfaceByPfx_none privateIP (n3 :: r3)).mp hfind


/-- C7 witness: the prefix fallback resolves the example pod IP through the
delegated interface. -/
theorem find_interface_fallback_spec_wit :
    ∃ ni2 rest2 inst, describeNIsByIP exPfxState exCfg.vpcID "10.0.0.9" = ni2 :: rest2
      ∧ ni2.instanceID = some inst
      ∧ exPfxIface ∈ describeNIsByInstance exPfxState exCfg.vpcID inst
      ∧ exPfxIface.ipv4Prefixes.any (fun pfx => cidrContains pfx "10.0.1.5") = true :=
  (find_interface_fallback_spec exCfg exPfxState "10.0.1.5" "10.0.0.9").2.1 (by decide)
    exPfxIface (by rfl)

end PEC
